import Mathlib

set_option maxHeartbeats 4000000
set_option maxRecDepth 10000

/-!
Shallow embedding of the document layout reconstruction core of `src/main.py`
(geometry normalisation, reading-order sorting, wide-line splitting and table
grid building).  Python floats are modelled as exact rationals, Python `int()`
as truncation toward zero, Python's stable `sorted` as insertion sort with a
lexicographic boolean key, and Python exceptions as an explicit `Except`
monad wherever the source relies on `try`/`except`.
-/

/-- Python value space for the geometry fields of a line record: `None`, a
number (int or float, modelled as an exact rational), or a possibly nested
list/tuple. -/
inductive PyObj where
  | none : PyObj
  | num : ℚ → PyObj
  | list : List PyObj → PyObj

mutual

def pyDecEq : (a b : PyObj) → Decidable (a = b)
  | .none, .none => isTrue rfl
  | .none, .num _ => isFalse (fun h => PyObj.noConfusion h)
  | .none, .list _ => isFalse (fun h => PyObj.noConfusion h)
  | .num _, .none => isFalse (fun h => PyObj.noConfusion h)
  | .num x, .num y =>
      if h : x = y then isTrue (by rw [h]) else
        isFalse (fun hh => by cases hh; exact h rfl)
  | .num _, .list _ => isFalse (fun h => PyObj.noConfusion h)
  | .list _, .none => isFalse (fun h => PyObj.noConfusion h)
  | .list _, .num _ => isFalse (fun h => PyObj.noConfusion h)
  | .list xs, .list ys =>
      match pyDecEqList xs ys with
      | isTrue h => isTrue (by rw [h])
      | isFalse h => isFalse (fun hh => by cases hh; exact h rfl)

def pyDecEqList : (a b : List PyObj) → Decidable (a = b)
  | [], [] => isTrue rfl
  | [], _ :: _ => isFalse (fun h => List.noConfusion h)
  | _ :: _, [] => isFalse (fun h => List.noConfusion h)
  | x :: xs, y :: ys =>
      match pyDecEq x y with
      | isFalse h1 => isFalse (fun hh => by cases hh; exact h1 rfl)
      | isTrue h1 =>
        match pyDecEqList xs ys with
        | isTrue h2 => isTrue (by rw [h1, h2])
        | isFalse h2 => isFalse (fun hh => by cases hh; exact h2 rfl)

end

instance : DecidableEq PyObj := pyDecEq

/-- Python truthiness of the modelled values: `None` and `0` are falsy, a
list is truthy iff non-empty. -/
def PyObj.truthy : PyObj → Bool
  | .none => false
  | .num x => decide (x ≠ 0)
  | .list xs => !xs.isEmpty

/-- Python `int()` applied to a real number: truncation toward zero. -/
def pyTrunc (x : ℚ) : Int := if 0 ≤ x then ⌊x⌋ else ⌈x⌉

/-- Exception monad modelling Python exceptions (`try`/`except` blocks). -/
abbrev PyM := Except Unit

/-- Python `float(v)`: succeeds on numbers, raises on `None` and lists. -/
def pyFloat : PyObj → PyM ℚ
  | .num x => Except.ok x
  | _ => Except.error ()

/-- Python `x, y = elem` followed by `float(x), float(y)` (the body of the
comprehension in `_coerce_points`): succeeds exactly on a two-element
list/tuple of numbers, raises otherwise. -/
def coercePairE : PyObj → PyM (ℚ × ℚ)
  | .list [a, b] => do
      let x ← pyFloat a
      let y ← pyFloat b
      Except.ok (x, y)
  | _ => Except.error ()

/-- The first branch guard of `_coerce_points`:
`isinstance(first, (list, tuple)) and len(first) == 2 and isinstance(first[0], (int, float))`. -/
def isFlatFirst : PyObj → Bool
  | .list [x, _] => match x with
    | .num _ => true
    | _ => false
  | _ => false

/-- The second branch guard of `_coerce_points`:
`isinstance(first, (list, tuple)) and first and isinstance(first[0], (list, tuple)) and len(first[0]) == 2`. -/
def isContourFirst : PyObj → Bool
  | .list (x :: _) => match x with
    | .list ys => decide (ys.length = 2)
    | _ => false
  | _ => false

mutual

/-- `_coerce_points` from `src/main.py`, with Python exceptions explicit:
the comprehension of the flat branch sits inside a `try`/`except` that
returns `[]` on failure; the contour branch recursively extends with the
points of every contour (no `try` around it, so an inner exception would
propagate — it is proven below that none can). -/
def coercePointsE : PyObj → PyM (List (ℚ × ℚ))
  | PyObj.none => Except.ok []
  | PyObj.num _ => Except.ok []
  | PyObj.list [] => Except.ok []
  | PyObj.list (first :: rest) =>
      if isFlatFirst first then
        match (first :: rest).mapM coercePairE with
        | Except.ok ps => Except.ok ps
        | Except.error _ => Except.ok []
      else if isContourFirst first then
        coerceContoursE (first :: rest)
      else Except.ok []

/-- The loop `for contour in obj: pts.extend(_coerce_points(contour))`. -/
def coerceContoursE : List PyObj → PyM (List (ℚ × ℚ))
  | [] => Except.ok []
  | c :: cs => do
      let ps ← coercePointsE c
      let rest ← coerceContoursE cs
      Except.ok (ps ++ rest)

end

/-- The value `_coerce_points` actually returns (its exceptions are proven
impossible below). -/
def _coerce_points (o : PyObj) : List (ℚ × ℚ) :=
  match coercePointsE o with
  | Except.ok l => l
  | Except.error _ => []

example : _coerce_points (PyObj.list [PyObj.list [PyObj.num 1, PyObj.num 2],
    PyObj.list [PyObj.num 3, PyObj.num 4]]) = [(1, 2), (3, 4)] := by decide

example : _coerce_points (PyObj.list [PyObj.list [PyObj.num 1, PyObj.none]]) = [] := by decide

example : _coerce_points (PyObj.list
    [PyObj.list [PyObj.list [PyObj.num 1, PyObj.num 2], PyObj.list [PyObj.num 3, PyObj.num 4]],
     PyObj.list [PyObj.list [PyObj.num 5, PyObj.num 6]]]) = [(1, 2), (3, 4), (5, 6)] := by decide

example : _coerce_points (PyObj.num 7) = [] := by decide
example : _coerce_points (PyObj.list [PyObj.num 7, PyObj.num 8]) = [] := by decide

/-- Integer axis-aligned bounding box, as the 4-tuples `(x0, y0, x1, y1)` of
the source. -/
structure BBox where
  x0 : Int
  y0 : Int
  x1 : Int
  y1 : Int
deriving DecidableEq

/-- Python `min` over a non-empty list (head and folded tail). -/
def listMin (l : List ℚ) : ℚ :=
  match l with
  | [] => 0
  | x :: xs => xs.foldl min x

/-- Python `max` over a non-empty list (head and folded tail). -/
def listMax (l : List ℚ) : ℚ :=
  match l with
  | [] => 0
  | x :: xs => xs.foldl max x

/-- `_bbox_from_points` from `src/main.py`: `None` on the empty point set,
otherwise the truncated min/max box padded by `pad`, rejected (`None`) if
degenerate. -/
def _bbox_from_points (points : List (ℚ × ℚ)) (pad : Int) : Option BBox :=
  match points with
  | [] => Option.none
  | _ :: _ =>
    let xs := points.map Prod.fst
    let ys := points.map Prod.snd
    let x0 := pyTrunc (listMin xs) - pad
    let y0 := pyTrunc (listMin ys) - pad
    let x1 := pyTrunc (listMax xs) + pad
    let y1 := pyTrunc (listMax ys) + pad
    if x1 ≤ x0 ∨ y1 ≤ y0 then Option.none else some ⟨x0, y0, x1, y1⟩

/-- A text-line record as consumed by the core: the optional geometry fields
(arbitrary Python values) and the recognized text (`prediction`; `none`
models a record without a `prediction` attribute/value). -/
structure Rec where
  bbox : PyObj
  boundary : PyObj
  polygon : PyObj
  baseline : PyObj
  prediction : Option String
deriving DecidableEq

/-- Python `x0, y0, x1, y1 = bbox` (unpacking an iterable of exactly 4). -/
def unpack4 : PyObj → PyM (PyObj × PyObj × PyObj × PyObj)
  | .list [a, b, c, d] => Except.ok (a, b, c, d)
  | _ => Except.error ()

/-- Python `int(v)` on a modelled value: truncation on numbers, raises
otherwise. -/
def pyIntE : PyObj → PyM Int
  | .num x => Except.ok (pyTrunc x)
  | _ => Except.error ()

/-- The explicit-box branch of `record_bbox`: `if bbox:` then inside
`try`/`except` unpack four values, coerce each with `int()`, and keep the box
only if `x1 > x0 and y1 > y0`; any exception or a failed check falls through
(`none`). -/
def explicitBBox (b : PyObj) : Option BBox :=
  if b.truthy then
    match (do
      let (a, b2, c, d) ← unpack4 b
      let x0 ← pyIntE a
      let y0 ← pyIntE b2
      let x1 ← pyIntE c
      let y1 ← pyIntE d
      Except.ok (x0, y0, x1, y1) : PyM (Int × Int × Int × Int)) with
    | Except.ok (x0, y0, x1, y1) =>
        if x1 > x0 ∧ y1 > y0 then some ⟨x0, y0, x1, y1⟩ else Option.none
    | Except.error _ => Option.none
  else Option.none

/-- `record_bbox` from `src/main.py`: explicit box first, then the
`boundary` and `polygon` attributes (2 px pad), then the baseline (2 px pad
plus 14 px extra vertical pad). -/
def record_bbox (r : Rec) : Option BBox :=
  match explicitBBox r.bbox with
  | some bb => some bb
  | Option.none =>
    match (if r.boundary.truthy then _bbox_from_points (_coerce_points r.boundary) 2
           else Option.none) with
    | some bb => some bb
    | Option.none =>
      match (if r.polygon.truthy then _bbox_from_points (_coerce_points r.polygon) 2
             else Option.none) with
      | some bb => some bb
      | Option.none =>
        if r.baseline.truthy then
          match _bbox_from_points (_coerce_points r.baseline) 2 with
          | some bb => some ⟨bb.x0, bb.y0 - 14, bb.x1, bb.y1 + 14⟩
          | Option.none => Option.none
        else Option.none

example : record_bbox ⟨PyObj.list [PyObj.num 1, PyObj.num 2, PyObj.num 10, PyObj.num 20],
    PyObj.none, PyObj.none, PyObj.none, some "t"⟩ = some ⟨1, 2, 10, 20⟩ := by decide

example : record_bbox ⟨PyObj.none, PyObj.none, PyObj.none,
    PyObj.list [PyObj.list [PyObj.num 0, PyObj.num 100], PyObj.list [PyObj.num 50, PyObj.num 100]],
    some "t"⟩ = some ⟨-2, 84, 52, 116⟩ := by decide

example : record_bbox ⟨PyObj.list [PyObj.num 5, PyObj.num 5, PyObj.num 5, PyObj.num 20],
    PyObj.none,
    PyObj.list [PyObj.list [PyObj.num 0, PyObj.num 0], PyObj.list [PyObj.num 9, PyObj.num 9]],
    PyObj.none, some "t"⟩ = some ⟨-2, -2, 11, 11⟩ := by decide

example : record_bbox ⟨PyObj.none, PyObj.none, PyObj.none, PyObj.none, some "t"⟩
    = Option.none := by decide

/-- Lexicographic comparison of two-component sort keys, as Python compares
key tuples. -/
def keyLeB (a b : ℚ × ℚ) : Bool :=
  decide (a.1 < b.1) || (decide (a.1 = b.1) && decide (a.2 ≤ b.2))

/-- Python's stable `sorted(l, key=...)`: a stable sort is unique for a total
preorder, so insertion sort computes exactly it. -/
def pySortBy (key : α → ℚ × ℚ) (l : List α) : List α :=
  l.insertionSort fun a b => keyLeB (key a) (key b) = true

example : pySortBy (fun n => ((n : ℚ), 0)) [3, 1, 2] = [1, 2, 3] := by decide

/-- The inner percentile helper `q` of `sort_records_reading_order`:
linear-interpolated percentile over the sorted value list. -/
def q (values : List ℚ) (p : ℚ) : Option ℚ :=
  match values with
  | [] => Option.none
  | _ :: _ =>
    let vals := pySortBy (fun v => (v, 0)) values
    let n := vals.length
    let k : ℚ := ((n : ℚ) - 1) * p
    let f : Int := pyTrunc k
    let c : Int := min (f + 1) ((n : Int) - 1)
    if f = c then some (vals.getD f.toNat 0)
    else some (vals.getD f.toNat 0 + (vals.getD c.toNat 0 - vals.getD f.toNat 0) * (k - (f : ℚ)))

example : q [0, 100] (1/4) = some 25 := by with_unfolding_all decide
example : q [1, 2, 3, 4] (3/4) = some (13/4) := by with_unfolding_all decide
example : q [] (1/4) = Option.none := by decide

/-- One iteration of the 1-D 2-means loop in `sort_records_reading_order`:
nearest-centre assignment (ties to the first centre) and mean update, an
empty cluster keeping its previous centre. -/
def kstep (xs : List ℚ) (c : ℚ × ℚ) : ℚ × ℚ :=
  let g1 := xs.filter fun x => decide (|x - c.1| ≤ |x - c.2|)
  let g2 := xs.filter fun x => !decide (|x - c.1| ≤ |x - c.2|)
  (if g1.isEmpty then c.1 else g1.sum / g1.length,
   if g2.isEmpty then c.2 else g2.sum / g2.length)

/-- Centre computation of the two-column detection: percentile seeds at 25
and 75, eight `kstep` iterations, then ordering the two centres; `none` when
there are no candidate centres (both percentiles `None`). -/
def kmeansCenters (xs : List ℚ) : Option (ℚ × ℚ) :=
  match q xs (1/4), q xs (3/4) with
  | some s1, some s2 =>
    let cp := (kstep xs)^[8] (s1, s2)
    some (if cp.1 > cp.2 then (cp.2, cp.1) else cp)
  | _, _ => Option.none

example : kmeansCenters [50, 60, 70, 900, 910, 920] = some (60, 910) := by
  with_unfolding_all decide

/-- Height `bb[3] - bb[1]` of a box. -/
def bbH (bb : BBox) : Int := bb.y1 - bb.y0

/-- Width `bb[2] - bb[0]` of a box. -/
def bbW (bb : BBox) : Int := bb.x1 - bb.x0

/-- Horizontal centre `(bb[0] + bb[2]) / 2.0` of a box. -/
def bbCenterX (bb : BBox) : ℚ := ((bb.x0 : ℚ) + (bb.x1 : ℚ)) / 2

/-- Vertical centre `(bb[1] + bb[3]) / 2.0` of a box. -/
def bbCenterY (bb : BBox) : ℚ := ((bb.y0 : ℚ) + (bb.y1 : ℚ)) / 2

/-- `is_fullwidth`: width at least `int(image_width * 0.75)` (0.75 is exact
in binary floating point, so the product is the exact value, truncated;
page widths are non-negative, whence the floor division). -/
def isFullwidth (w : Int) (bb : BBox) : Bool :=
  decide (bbW bb ≥ Int.fdiv (3 * w) 4)

/-- The `items` list: every record paired with its derived box, records
without one dropped (`if bb: items.append((r, bb))`). -/
def sorterItems (records : List Rec) : List (Rec × BBox) :=
  records.filterMap fun r => (record_bbox r).map fun bb => (r, bb)

/-- The body candidates: boxes at least `MIN_H = 14` tall and not full
width. -/
def bodyCandidates (w : Int) (items : List (Rec × BBox)) : List (Rec × BBox) :=
  items.filter fun p => decide (bbH p.2 ≥ 14) && !isFullwidth w p.2

/-- The per-band classification of `sort_records_reading_order`: thin
fragments always mid-band, otherwise header above `body_top - 10`, footer
below `body_bot + 10`. -/
inductive Band where
  | header : Band
  | footer : Band
  | mid : Band
deriving DecidableEq

/-- Band of one box given the trimmed body extent. -/
def bandOf (bodyTop bodyBot : ℚ) (bb : BBox) : Band :=
  if bbH bb < 14 then Band.mid
  else if (bb.y1 : ℚ) < bodyTop - 10 then Band.header
  else if (bb.y0 : ℚ) > bodyBot + 10 then Band.footer
  else Band.mid

/-- Plain `(y, x)` fallback key over `(record, box)` pairs. -/
def plainKey (p : Rec × BBox) : ℚ × ℚ := ((p.2.y0 : ℚ), (p.2.x0 : ℚ))

/-- Fallback key with the sign flips of the degenerate branch
(`-y` for bottom-to-top, `-x` for right-to-left). -/
def flipKey (revY revX : Bool) (p : Rec × BBox) : ℚ × ℚ :=
  ((if revY then -(p.2.y0 : ℚ) else (p.2.y0 : ℚ)),
   (if revX then -(p.2.x0 : ℚ) else (p.2.x0 : ℚ)))

/-- Per-band sort key `(center_y, left_x)` with mode sign flips. -/
def bandKey (revY revX : Bool) (p : Rec × BBox) : ℚ × ℚ :=
  ((if revY then -bbCenterY p.2 else bbCenterY p.2),
   (if revX then -(p.2.x0 : ℚ) else (p.2.x0 : ℚ)))

/-- Sort items by a key and keep the records (`[r for r, _ in sorted(...)]`). -/
def fallbackSort (key : Rec × BBox → ℚ × ℚ) (items : List (Rec × BBox)) : List Rec :=
  (pySortBy key items).map Prod.fst

/-- The final concatenation of the four sorted blocks according to the
reading mode (0 = TB_LR, 1 = TB_RL, 2 = BT_LR, anything else the BT_RL
branch of the trailing `else`). -/
def assembleBlocks (mode : Nat) (hs ls rs fs : List Rec) : List Rec :=
  if mode == 0 then hs ++ ls ++ rs ++ fs
  else if mode == 1 then hs ++ rs ++ ls ++ fs
  else if mode == 2 then fs ++ ls ++ rs ++ hs
  else fs ++ rs ++ ls ++ hs

/-- The band-and-column branch of `sort_records_reading_order`: classify all
items into header/footer/mid-band, split the mid-band into left/right
columns (full-width lines forced left, others to the nearer centre), sort
each band with the per-mode key and concatenate according to the reading
mode (0 = TB_LR, 1 = TB_RL, 2 = BT_LR, anything else the BT_RL branch). -/
def bandAssembly (w : Int) (mode : Nat) (c1 c2 bodyTop bodyBot : ℚ)
    (items : List (Rec × BBox)) : List Rec :=
  let header := items.filter fun p => decide (bandOf bodyTop bodyBot p.2 = Band.header)
  let footer := items.filter fun p => decide (bandOf bodyTop bodyBot p.2 = Band.footer)
  let midband := items.filter fun p => decide (bandOf bodyTop bodyBot p.2 = Band.mid)
  let revY := mode == 2 || mode == 3
  let revX := mode == 1 || mode == 3
  let leftCol := midband.filter fun p =>
    isFullwidth w p.2 || decide (|bbCenterX p.2 - c1| ≤ |bbCenterX p.2 - c2|)
  let rightCol := midband.filter fun p =>
    !isFullwidth w p.2 && !decide (|bbCenterX p.2 - c1| ≤ |bbCenterX p.2 - c2|)
  let hs := (pySortBy (bandKey revY revX) header).map Prod.fst
  let fs := (pySortBy (bandKey revY revX) footer).map Prod.fst
  let ls := (pySortBy (bandKey revY revX) leftCol).map Prod.fst
  let rs := (pySortBy (bandKey revY revX) rightCol).map Prod.fst
  assembleBlocks mode hs ls rs fs

/-- The non-degenerate part of `sort_records_reading_order` (everything
after the `if not items` early return). -/
def sortWithGeom (w : Int) (mode : Nat) (items : List (Rec × BBox)) : List Rec :=
  let body := bodyCandidates w items
  if body.length < 6 then
    fallbackSort (flipKey (decide (mode / 2 = 1)) (decide (mode % 2 = 1))) items
  else
    match kmeansCenters (body.map fun p => bbCenterX p.2) with
    | Option.none => fallbackSort plainKey items
    | some (c1, c2) =>
      if |c2 - c1| < (w : ℚ) * (18/100) then
        fallbackSort plainKey items
      else
        match q (body.map fun p => ((p.2.y0 : ℚ))) (8/100),
              q (body.map fun p => ((p.2.y1 : ℚ))) (92/100) with
        | some bodyTop, some bodyBot => bandAssembly w mode c1 c2 bodyTop bodyBot items
        | _, _ => fallbackSort plainKey items

/-- `sort_records_reading_order` from `src/main.py` (0.18 and 0.75 of the
image width modelled as exact rationals). -/
def sort_records_reading_order (records : List Rec) (w : Int) (mode : Nat) : List Rec :=
  match sorterItems records with
  | [] => records
  | item :: items => sortWithGeom w mode (item :: items)

example : sort_records_reading_order [] 100 0 = [] := by decide

/-- `clamp_bbox` from `src/main.py`.  Despite its `Optional` annotation it
always returns a tuple (never `None`). -/
def clamp_bbox (bb : BBox) (w h : Int) : BBox :=
  ⟨max 0 (min (w - 1) bb.x0), max 0 (min (h - 1) bb.y0),
   max 0 (min w bb.x1), max 0 (min h bb.y1)⟩

/-- `int(page_w * 0.80)`: 0.80 times a non-negative page width, truncated
(exact-rational model of the float product). -/
def wideLimit (pw : Int) : Int := Int.fdiv (4 * pw) 5

/-- Whitespace characters recognized by the `\s` class of the splitting
regex (ASCII fragment). -/
def isWs (c : Char) : Bool :=
  c = ' ' || c = '\t' || c = '\n' || c = '\r' || c = '\x0b' || c = '\x0c'

/-- `re.split(r"\s{2,}", txt, maxsplit=1)` when it produces exactly two
parts: `some (before, after)` where the match is the first maximal run of at
least two whitespace characters, `none` when the pattern does not occur. -/
def splitFirstRun : List Char → Option (List Char × List Char)
  | [] => Option.none
  | [_] => Option.none
  | a :: b :: rest =>
    if isWs a && isWs b then some ([], rest.dropWhile isWs)
    else
      match splitFirstRun (b :: rest) with
      | some (l, r) => some (a :: l, r)
      | Option.none => Option.none

example : splitFirstRun "AAAA    BBBB".data = some ("AAAA".data, "BBBB".data) := by decide
example : splitFirstRun "AAAA BBBB".data = Option.none := by decide
example : splitFirstRun "a b  c".data = some ("a b".data, "c".data) := by decide

/-- Python `str.strip()` (ASCII-whitespace fragment). -/
def pyStrip (s : String) : String :=
  ⟨((s.data.dropWhile isWs).reverse.dropWhile isWs).reverse⟩

/-- The per-line output view built by the post-processing loop of
`_ocr_one`: running index, text, and optional box. -/
structure RecordView where
  idx : Nat
  text : String
  bbox : Option BBox
deriving DecidableEq

/-- Body of the post-processing loop of `_ocr_one` for one record: records
without a `prediction` are skipped; a record whose box is wider than 80% of
the page width and whose text splits on a run of two-or-more whitespace
characters becomes two synthetic lines whose boxes are the clamped left and
right page halves (`(0, y0, mid, y1)` and `(mid, y0, page_w, y1)`,
`mid = page_w // 2`); a clamped box is a non-empty tuple, hence always
truthy, so both synthetic lines are always kept. -/
def splitViews (pw ph : Int) (r : Rec) : List (String × Option BBox) :=
  match r.prediction with
  | Option.none => []
  | some txt =>
    match record_bbox r with
    | some bb =>
      if bbW bb > wideLimit pw then
        match splitFirstRun txt.data with
        | some (l, rt) =>
          let mid := Int.fdiv pw 2
          [(pyStrip ⟨l⟩, some (clamp_bbox ⟨0, bb.y0, mid, bb.y1⟩ pw ph)),
           (pyStrip ⟨rt⟩, some (clamp_bbox ⟨mid, bb.y0, pw, bb.y1⟩ pw ph))]
        | Option.none => [(txt, some bb)]
      else [(txt, some bb)]
    | Option.none => [(txt, Option.none)]

/-- The whole post-processing loop of `_ocr_one`: concatenate the per-record
views and index them consecutively from 0. -/
def postProcess (recs : List Rec) (pw ph : Int) : List RecordView :=
  ((recs.map (splitViews pw ph)).flatten.enum).map fun p => ⟨p.1, p.2.1, p.2.2⟩

example : postProcess
    [⟨PyObj.list [PyObj.num 0, PyObj.num 100, PyObj.num 680, PyObj.num 120],
      PyObj.none, PyObj.none, PyObj.none, some "AAAA    BBBB"⟩] 800 600 =
    [⟨0, "AAAA", some ⟨0, 100, 400, 120⟩⟩, ⟨1, "BBBB", some ⟨400, 100, 800, 120⟩⟩] := by
  with_unfolding_all decide

/-- A column cluster of `cluster_columns`: running anchor `x` and member
views. -/
structure ColCluster where
  x : Int
  items : List RecordView
deriving DecidableEq

/-- The inner placement loop of `cluster_columns`: attach to the first
column whose anchor is within the threshold, updating the anchor to
`int(anchor * 0.8 + x0 * 0.2)` (exact-rational model of the float blend),
else open a new column at `x0`. -/
def placeCol (x_threshold : Int) (cols : List ColCluster) (r : RecordView) (x0 : Int) :
    List ColCluster :=
  match cols with
  | [] => [⟨x0, [r]⟩]
  | c :: rest =>
    if |c.x - x0| ≤ x_threshold then
      ⟨pyTrunc (((4 * c.x + x0 : Int) : ℚ) / 5), c.items ++ [r]⟩ :: rest
    else c :: placeCol x_threshold rest r x0

/-- `cluster_columns` from `src/main.py` (default threshold 45 px): group
box-bearing views by left edge, then sort columns by anchor. -/
def cluster_columns (records : List RecordView) (x_threshold : Int) : List (List RecordView) :=
  let cols := records.foldl (fun cols r =>
    match r.bbox with
    | Option.none => cols
    | some bb => placeCol x_threshold cols r bb.x0) []
  (pySortBy (fun c => ((c.x : ℚ), 0)) cols).map ColCluster.items

/-- `is_same_visual_row` from `src/main.py`: both views must carry a box,
top edges within 12 px, and the two boxes must not lie strictly on opposite
sides of the page's horizontal midpoint. -/
def is_same_visual_row (a b : RecordView) (page_width : Int) : Bool :=
  match a.bbox, b.bbox with
  | some ba, some bb =>
    if |ba.y0 - bb.y0| > 12 then false
    else
      if (ba.x1 < Int.fdiv page_width 2 ∧ bb.x0 > Int.fdiv page_width 2) ∨
         (bb.x1 < Int.fdiv page_width 2 ∧ ba.x0 > Int.fdiv page_width 2) then false
      else true
  | _, _ => false

/-- The greedy row placement of `group_rows_by_y`: a view joins the first
row whose first (representative) member is same-visual-row compatible,
otherwise opens a new row. -/
def placeRow (pw : Int) (rows : List (List RecordView)) (r : RecordView) :
    List (List RecordView) :=
  match rows with
  | [] => [[r]]
  | row :: rest =>
    match row with
    | rep :: _ =>
      if is_same_visual_row rep r pw then (row ++ [r]) :: rest
      else row :: placeRow pw rest r
    | [] => [] :: placeRow pw rest r

/-- The `(rv.bbox[1], rv.bbox[0])` sort key of `group_rows_by_y`; the
`(0, 0)` default is unreachable because boxless views are filtered out
first. -/
def rowSortKeyY (rv : RecordView) : ℚ × ℚ :=
  match rv.bbox with
  | some bb => ((bb.y0 : ℚ), (bb.x0 : ℚ))
  | Option.none => (0, 0)

/-- The within-row `rv.bbox[0]` sort key of `group_rows_by_y`. -/
def rowSortKeyX (rv : RecordView) : ℚ × ℚ :=
  match rv.bbox with
  | some bb => ((bb.x0 : ℚ), 0)
  | Option.none => (0, 0)

/-- `group_rows_by_y` from `src/main.py`: box-bearing views sorted by
`(top, left)`, greedily grouped, each row finally sorted left-to-right. -/
def group_rows_by_y (records : List RecordView) (page_width : Int) :
    List (List RecordView) :=
  ((pySortBy rowSortKeyY (records.filter fun rv => rv.bbox.isSome)).foldl
    (placeRow page_width) []).map (pySortBy rowSortKeyX)

/-- The `nearest_col` helper of `table_to_rows`: index of the column anchor
closest to `x` (first wins ties), 0 when there are no anchors. -/
def nearest_col (col_x : List Int) (x : Int) : Nat :=
  match col_x with
  | [] => 0
  | c0 :: rest =>
    ((rest.enum.map fun p => (p.1 + 1, p.2)).foldl
      (fun best p => if |p.2 - x| < best.2 then (p.1, |p.2 - x|) else best)
      (0, |c0 - x|)).1

/-- One output row of `table_to_rows`: cells of all columns (at least one),
each member's text appended to the nearest column's cell, joined by a space
when the cell already has content. -/
def rowCells (col_x : List Int) (row : List RecordView) : List String :=
  row.foldl (fun line rv =>
    match rv.bbox with
    | Option.none => line
    | some bb =>
      let c := nearest_col col_x bb.x0
      let s := line.getD c ""
      line.set c (if s.isEmpty then rv.text else s ++ " " ++ rv.text))
    (List.replicate (max 1 col_x.length) "")

/-- `table_to_rows` from `src/main.py`: visual rows, column anchors as the
truncated mean of each column's left edges, and per-row cell arrays. -/
def table_to_rows (records : List RecordView) (page_width : Int) : List (List String) :=
  let rows := group_rows_by_y records page_width
  let cols := cluster_columns records 45
  let col_x := cols.map fun col =>
    let xs : List Int := col.filterMap fun rv => (rv.bbox).map BBox.x0
    if xs.isEmpty then 0 else pyTrunc ((xs.sum : ℚ) / ((max 1 xs.length : Nat) : ℚ))
  rows.map (rowCells col_x)

/-- The grid the export path of `_render_file` feeds to every tabular
format: `table_to_rows` when some view carries a box, otherwise one
single-cell row per line. -/
def build_grid (views : List RecordView) (pw : Int) : List (List String) :=
  if views.any (fun v => v.bbox.isSome) then table_to_rows views pw
  else views.map fun v => [v.text]

example : build_grid [⟨0, "hello", Option.none⟩] 800 = [["hello"]] := by decide

/-- A line record with explicit box `(100, y, 300, y + 14)`: 14 px tall,
200 px wide, horizontally centred at 200. -/
def stackRec (y : ℚ) : Rec :=
  ⟨PyObj.list [PyObj.num 100, PyObj.num y, PyObj.num 300, PyObj.num (y + 14)],
   PyObj.none, PyObj.none, PyObj.none, some "t"⟩

/-- Six stacked identically-centred body candidates: enough for column
detection, whose two centres then coincide. -/
def stack6 : List Rec :=
  [stackRec 10, stackRec 30, stackRec 50, stackRec 70, stackRec 90, stackRec 110]

/-- A line with no geometry at all. -/
def recNoGeo : Rec := ⟨PyObj.none, PyObj.none, PyObj.none, PyObj.none, some "ghost"⟩

/-- A line with a valid explicit box. -/
def recWithBox : Rec :=
  ⟨PyObj.list [PyObj.num 0, PyObj.num 0, PyObj.num 10, PyObj.num 20],
   PyObj.none, PyObj.none, PyObj.none, some "solid"⟩

example : build_grid
    [⟨0, "a", some ⟨0, 0, 100, 20⟩⟩, ⟨1, "b", some ⟨450, 2, 700, 22⟩⟩,
     ⟨2, "c", some ⟨0, 40, 100, 60⟩⟩, ⟨3, "d", some ⟨450, 44, 700, 64⟩⟩] 1000 =
    [["a", "b"], ["c", "d"]] := by with_unfolding_all decide

example : group_rows_by_y
    [⟨0, "a", some ⟨0, 0, 100, 100⟩⟩, ⟨1, "b", some ⟨0, 30, 100, 130⟩⟩] 1000 =
    [[⟨0, "a", some ⟨0, 0, 100, 100⟩⟩], [⟨1, "b", some ⟨0, 30, 100, 130⟩⟩]] := by
  with_unfolding_all decide

/-! ### Helper lemmas -/

mutual

theorem coerce_no_raise : ∀ o : PyObj, ∃ l, coercePointsE o = Except.ok l
  | PyObj.none => ⟨[], rfl⟩
  | PyObj.num _ => ⟨[], rfl⟩
  | PyObj.list [] => ⟨[], rfl⟩
  | PyObj.list (first :: rest) => by
      unfold coercePointsE
      by_cases h1 : isFlatFirst first = true
      · rw [if_pos h1]
        cases hm : (first :: rest).mapM coercePairE with
        | ok ps => exact ⟨ps, rfl⟩
        | error e => exact ⟨[], rfl⟩
      · rw [if_neg h1]
        by_cases h2 : isContourFirst first = true
        · rw [if_pos h2]
          exact contours_no_raise (first :: rest)
        · rw [if_neg h2]
          exact ⟨[], rfl⟩

theorem contours_no_raise : ∀ l : List PyObj, ∃ r, coerceContoursE l = Except.ok r
  | [] => ⟨[], rfl⟩
  | c :: cs => by
      obtain ⟨ps, hps⟩ := coerce_no_raise c
      obtain ⟨rs, hrs⟩ := contours_no_raise cs
      exact ⟨ps ++ rs, by simp [coerceContoursE, hps, hrs]; rfl⟩

end

theorem coercePointsE_eq_ok (o : PyObj) : coercePointsE o = Except.ok (_coerce_points o) := by
  obtain ⟨l, h⟩ := coerce_no_raise o
  simp [_coerce_points, h]

theorem coerce_ne_nil_truthy (o : PyObj) (h : _coerce_points o ≠ []) : o.truthy = true := by
  cases o with
  | none => exact absurd rfl h
  | num x => exact absurd rfl h
  | list xs =>
    cases xs with
    | nil => exact absurd rfl h
    | cons a t => simp [PyObj.truthy]

/-! ### C7: no-geometry degenerate behaviour -/

/-- C7: if no input line has any usable geometry, `order` returns the lines
in input order unchanged, and the grid builder produces one single-cell row
per line containing that line's text. -/
theorem c7_no_geometry_fallback :
    (∀ (recs : List Rec) (w : Int) (mode : Nat),
      (∀ r ∈ recs, record_bbox r = Option.none) →
      sort_records_reading_order recs w mode = recs) ∧
    (∀ (views : List RecordView) (pw : Int),
      (∀ v ∈ views, v.bbox = Option.none) →
      build_grid views pw = views.map fun v => [v.text]) := by
  constructor
  · intro recs w mode h
    have hempty : sorterItems recs = [] := by
      rw [sorterItems, List.filterMap_eq_nil_iff]
      intro r hr
      rw [h r hr]
      rfl
    unfold sort_records_reading_order
    rw [hempty]
  · intro views pw h
    have hany : (views.any fun v => v.bbox.isSome) = false := by
      rw [List.any_eq_false]
      intro v hv
      rw [h v hv]
      simp
    unfold build_grid
    rw [hany]
    simp

/-- Witness for C7: the single boxless line `"hello"` passes through
`order` unchanged and the grid degenerates to `[["hello"]]`. -/
theorem c7_no_geometry_fallback_witness :
    sort_records_reading_order [⟨PyObj.none, PyObj.none, PyObj.none, PyObj.none, some "hello"⟩]
      800 0 = [⟨PyObj.none, PyObj.none, PyObj.none, PyObj.none, some "hello"⟩] ∧
    build_grid [⟨0, "hello", Option.none⟩] 800 =
      ([⟨0, "hello", Option.none⟩] : List RecordView).map (fun v => [v.text]) :=
  ⟨c7_no_geometry_fallback.1 _ 800 0 (by decide),
   c7_no_geometry_fallback.2 [⟨0, "hello", Option.none⟩] 800 (by decide)⟩

/-! ### C8: geometry extraction never raises -/

/-- C8: point coercion never raises — for every value of a geometry field
the exception-explicit coercion succeeds with the fail-closed result; an
empty point set yields a `None` bbox; and a record whose geometry yields no
bbox is retained in text-only form by the output loop. -/
theorem c8_coercion_never_raises :
    (∀ o : PyObj, coercePointsE o = Except.ok (_coerce_points o)) ∧
    (∀ o : PyObj, _coerce_points o = [] →
      _bbox_from_points (_coerce_points o) 2 = Option.none) ∧
    (∀ (r : Rec) (txt : String) (pw ph : Int),
      r.prediction = some txt → record_bbox r = Option.none →
      splitViews pw ph r = [(txt, Option.none)]) := by
  refine ⟨coercePointsE_eq_ok, ?_, ?_⟩
  · intro o h
    rw [h]
    rfl
  · intro r txt pw ph hp hb
    unfold splitViews
    rw [hp, hb]

/-- Witness for C8: a malformed point list coerces exception-free to the
empty point set, and a record with an unusable bbox value and no other
geometry survives as a text-only view. -/
theorem c8_coercion_never_raises_witness :
    coercePointsE (PyObj.list [PyObj.list [PyObj.num 1, PyObj.none]]) =
      Except.ok (_coerce_points (PyObj.list [PyObj.list [PyObj.num 1, PyObj.none]])) ∧
    _bbox_from_points (_coerce_points (PyObj.num 3)) 2 = Option.none ∧
    splitViews 800 600 ⟨PyObj.num 3, PyObj.none, PyObj.none, PyObj.none, some "hi"⟩ =
      [("hi", Option.none)] :=
  ⟨c8_coercion_never_raises.1 _,
   c8_coercion_never_raises.2.1 (PyObj.num 3) (by decide),
   c8_coercion_never_raises.2.2 _ "hi" 800 600 rfl (by decide)⟩

/-! ### C9: geometry priority -/

/-- C9: a line exposing a non-degenerate explicit box always gets exactly
that box — the polygon is never consulted; when the explicit box is
rejected, the polygon-derived padded box (if any) is returned. -/
theorem c9_geometry_priority :
    (∀ (r : Rec) (bb : BBox), explicitBBox r.bbox = some bb → record_bbox r = some bb) ∧
    (∀ (r : Rec) (bb : BBox), explicitBBox r.bbox = Option.none → r.boundary = PyObj.none →
      _bbox_from_points (_coerce_points r.polygon) 2 = some bb → record_bbox r = some bb) := by
  constructor
  · intro r bb h
    unfold record_bbox
    rw [h]
  · intro r bb h hbnd hpoly
    have hne : _coerce_points r.polygon ≠ [] := by
      intro he
      rw [he] at hpoly
      exact Option.noConfusion hpoly
    have htr : r.polygon.truthy = true := coerce_ne_nil_truthy _ hne
    unfold record_bbox
    rw [h, hbnd, htr, hpoly]
    simp [PyObj.truthy]

/-- Witness for C9: a record with both a valid explicit box and a polygon
uses the box; with a degenerate explicit box it falls back to the padded
polygon box. -/
theorem c9_geometry_priority_witness :
    record_bbox ⟨PyObj.list [PyObj.num 1, PyObj.num 2, PyObj.num 10, PyObj.num 20],
      PyObj.none,
      PyObj.list [PyObj.list [PyObj.num 0, PyObj.num 0], PyObj.list [PyObj.num 9, PyObj.num 9]],
      PyObj.none, some "t"⟩ = some ⟨1, 2, 10, 20⟩ ∧
    record_bbox ⟨PyObj.list [PyObj.num 5, PyObj.num 5, PyObj.num 5, PyObj.num 20],
      PyObj.none,
      PyObj.list [PyObj.list [PyObj.num 0, PyObj.num 0], PyObj.list [PyObj.num 9, PyObj.num 9]],
      PyObj.none, some "t"⟩ = some ⟨-2, -2, 11, 11⟩ :=
  ⟨c9_geometry_priority.1 _ ⟨1, 2, 10, 20⟩ (by decide),
   c9_geometry_priority.2 _ ⟨-2, -2, 11, 11⟩ (by decide) rfl (by decide)⟩

/-! ### C5: baseline-derived boxes -/

theorem pyTrunc_mono {a b : ℚ} (h : a ≤ b) : pyTrunc a ≤ pyTrunc b := by
  unfold pyTrunc
  by_cases ha : 0 ≤ a
  · rw [if_pos ha, if_pos (le_trans ha h)]
    exact Int.floor_le_floor h
  · rw [if_neg ha]
    by_cases hb : 0 ≤ b
    · rw [if_pos hb]
      have h1 : ⌈a⌉ ≤ 0 := Int.ceil_le.mpr (by push_cast; linarith)
      have h2 : (0 : Int) ≤ ⌊b⌋ := Int.floor_nonneg.mpr hb
      omega
    · rw [if_neg hb]
      exact Int.ceil_le_ceil h

theorem foldl_min_le_init (xs : List ℚ) (a : ℚ) : xs.foldl min a ≤ a := by
  induction xs generalizing a with
  | nil => exact le_refl a
  | cons y ys ih => exact le_trans (ih (min a y)) (min_le_left a y)

theorem foldl_min_le_mem {xs : List ℚ} {x : ℚ} (a : ℚ) (h : x ∈ xs) : xs.foldl min a ≤ x := by
  induction xs generalizing a with
  | nil => cases h
  | cons y ys ih =>
    rcases List.mem_cons.mp h with h1 | h2
    · subst h1
      exact le_trans (foldl_min_le_init ys (min a x)) (min_le_right a x)
    · exact ih _ h2

theorem listMin_le_of_mem {xs : List ℚ} {x : ℚ} (h : x ∈ xs) : listMin xs ≤ x := by
  cases xs with
  | nil => cases h
  | cons y ys =>
    rcases List.mem_cons.mp h with h1 | h2
    · subst h1
      exact foldl_min_le_init ys x
    · exact foldl_min_le_mem y h2

theorem init_le_foldl_max (xs : List ℚ) (a : ℚ) : a ≤ xs.foldl max a := by
  induction xs generalizing a with
  | nil => exact le_refl a
  | cons y ys ih => exact le_trans (le_max_left a y) (ih (max a y))

theorem mem_le_foldl_max {xs : List ℚ} {x : ℚ} (a : ℚ) (h : x ∈ xs) : x ≤ xs.foldl max a := by
  induction xs generalizing a with
  | nil => cases h
  | cons y ys ih =>
    rcases List.mem_cons.mp h with h1 | h2
    · subst h1
      exact le_trans (le_max_right a x) (init_le_foldl_max ys (max a x))
    · exact ih _ h2

theorem le_listMax_of_mem {xs : List ℚ} {x : ℚ} (h : x ∈ xs) : x ≤ listMax xs := by
  cases xs with
  | nil => cases h
  | cons y ys =>
    rcases List.mem_cons.mp h with h1 | h2
    · subst h1
      exact init_le_foldl_max ys x
    · exact mem_le_foldl_max y h2

theorem listMin_le_listMax {xs : List ℚ} (h : xs ≠ []) : listMin xs ≤ listMax xs := by
  cases xs with
  | nil => exact absurd rfl h
  | cons y ys =>
    exact le_trans (listMin_le_of_mem (List.mem_cons_self y ys))
      (le_listMax_of_mem (List.mem_cons_self y ys))

/-- The padded min/max box of a non-empty point set is never degenerate, so
`_bbox_from_points` with pad 2 always succeeds on it. -/
theorem bbox_from_points_nonempty (p : ℚ × ℚ) (ps : List (ℚ × ℚ)) :
    _bbox_from_points (p :: ps) 2 =
      some ⟨pyTrunc (listMin ((p :: ps).map Prod.fst)) - 2,
            pyTrunc (listMin ((p :: ps).map Prod.snd)) - 2,
            pyTrunc (listMax ((p :: ps).map Prod.fst)) + 2,
            pyTrunc (listMax ((p :: ps).map Prod.snd)) + 2⟩ := by
  have hne1 : ((p :: ps).map Prod.fst) ≠ [] := by simp
  have hne2 : ((p :: ps).map Prod.snd) ≠ [] := by simp
  have h1 : pyTrunc (listMin ((p :: ps).map Prod.fst)) ≤
      pyTrunc (listMax ((p :: ps).map Prod.fst)) := pyTrunc_mono (listMin_le_listMax hne1)
  have h2 : pyTrunc (listMin ((p :: ps).map Prod.snd)) ≤
      pyTrunc (listMax ((p :: ps).map Prod.snd)) := pyTrunc_mono (listMin_le_listMax hne2)
  unfold _bbox_from_points
  rw [if_neg (by push_neg; omega)]

/-- C5 (amended): a line whose only usable geometry is a baseline polyline
with a non-empty coerced point set gets the bounding box of the points with
coordinates truncated toward zero, padded horizontally by 2 px and
vertically by 16 px on each side (the 2 px general pad plus the 14 px
baseline pad), not 14 px. -/
theorem c5_baseline_pad_amended (r : Rec) (p : ℚ × ℚ) (ps : List (ℚ × ℚ))
    (hb : r.bbox = PyObj.none) (hbnd : r.boundary = PyObj.none)
    (hpoly : r.polygon = PyObj.none) (hbl : _coerce_points r.baseline = p :: ps) :
    record_bbox r = some ⟨pyTrunc (listMin ((p :: ps).map Prod.fst)) - 2,
                          pyTrunc (listMin ((p :: ps).map Prod.snd)) - 16,
                          pyTrunc (listMax ((p :: ps).map Prod.fst)) + 2,
                          pyTrunc (listMax ((p :: ps).map Prod.snd)) + 16⟩ := by
  have htr : r.baseline.truthy = true := coerce_ne_nil_truthy _ (by rw [hbl]; simp)
  unfold record_bbox
  rw [hb, hbnd, hpoly, htr, hbl, bbox_from_points_nonempty]
  simp [explicitBBox, PyObj.truthy]
  constructor
  · omega
  · omega

/-- Counterexample for C5 as stated: the baseline `[(0, 100), (50, 100)]`
yields the box `(-2, 84, 52, 116)`; the claim predicts `y0 = ⌊100⌋ - 14 =
86` (and `y1 = 114`), but the code pads by 2 + 14 = 16 on each side. -/
theorem c5_baseline_pad_cex :
    record_bbox ⟨PyObj.none, PyObj.none, PyObj.none,
      PyObj.list [PyObj.list [PyObj.num 0, PyObj.num 100], PyObj.list [PyObj.num 50, PyObj.num 100]],
      some "t"⟩ = some ⟨-2, 84, 52, 116⟩ ∧
    (84 : Int) ≠ ⌊(100 : ℚ)⌋ - 14 ∧ (116 : Int) ≠ ⌊(100 : ℚ)⌋ + 14 := by
  refine ⟨by decide, by decide, by decide⟩

/-- Witness for the amended C5 at the same concrete baseline. -/
theorem c5_baseline_pad_amended_witness :
    record_bbox ⟨PyObj.none, PyObj.none, PyObj.none,
      PyObj.list [PyObj.list [PyObj.num 0, PyObj.num 100], PyObj.list [PyObj.num 50, PyObj.num 100]],
      some "t"⟩ =
    some ⟨pyTrunc (listMin (([((0 : ℚ), (100 : ℚ)), ((50 : ℚ), (100 : ℚ))]).map Prod.fst)) - 2,
          pyTrunc (listMin (([((0 : ℚ), (100 : ℚ)), ((50 : ℚ), (100 : ℚ))]).map Prod.snd)) - 16,
          pyTrunc (listMax (([((0 : ℚ), (100 : ℚ)), ((50 : ℚ), (100 : ℚ))]).map Prod.fst)) + 2,
          pyTrunc (listMax (([((0 : ℚ), (100 : ℚ)), ((50 : ℚ), (100 : ℚ))]).map Prod.snd)) + 16⟩ :=
  c5_baseline_pad_amended _ ((0 : ℚ), (100 : ℚ)) [((50 : ℚ), (100 : ℚ))] rfl rfl rfl (by decide)

/-! ### C2: wide-line splitting -/

/-- C2 (amended): a line whose box is wider than 80% of the page and whose
text contains a run of two-or-more whitespace characters is split at the
first such run into exactly two synthetic lines, the left one with the
clamped box `(0, y0, mid, y1)` and the right one with the clamped box
`(mid, y0, page_w, y1)` where `mid = page_w // 2` — the halves span the
full page width; the original `x0`/`x1` are discarded. -/
theorem c2_wide_split_amended (pw ph : Int) (r : Rec) (txt : String) (bb : BBox)
    (l rt : List Char) (hp : r.prediction = some txt) (hb : record_bbox r = some bb)
    (hw : bbW bb > wideLimit pw) (hs : splitFirstRun txt.data = some (l, rt)) :
    splitViews pw ph r =
      [(pyStrip ⟨l⟩, some (clamp_bbox ⟨0, bb.y0, Int.fdiv pw 2, bb.y1⟩ pw ph)),
       (pyStrip ⟨rt⟩, some (clamp_bbox ⟨Int.fdiv pw 2, bb.y0, pw, bb.y1⟩ pw ph))] := by
  unfold splitViews
  rw [hp, hb]
  dsimp only
  rw [if_pos hw, hs]

/-- Counterexample for C2 as stated: the claim's own scenario — a line of
text `"AAAA    BBBB"` whose box `(0, 100, 680, 120)` is 85% of an 800 px
page — yields a right line with box `(400, 100, 800, 120)`, not the claimed
`mid..x1 = (400, 100, 680, 120)`: the halves span the whole page, `x1` is
discarded. -/
theorem c2_split_box_cex :
    postProcess [⟨PyObj.list [PyObj.num 0, PyObj.num 100, PyObj.num 680, PyObj.num 120],
      PyObj.none, PyObj.none, PyObj.none, some "AAAA    BBBB"⟩] 800 600 =
      [⟨0, "AAAA", some ⟨0, 100, 400, 120⟩⟩, ⟨1, "BBBB", some ⟨400, 100, 800, 120⟩⟩] ∧
    (⟨400, 100, 800, 120⟩ : BBox) ≠ ⟨400, 100, 680, 120⟩ :=
  ⟨by with_unfolding_all decide, by decide⟩

/-- Witness for the amended C2 at the same concrete input. -/
theorem c2_wide_split_amended_witness :
    splitViews 800 600 ⟨PyObj.list [PyObj.num 0, PyObj.num 100, PyObj.num 680, PyObj.num 120],
      PyObj.none, PyObj.none, PyObj.none, some "AAAA    BBBB"⟩ =
      [(pyStrip ⟨"AAAA".data⟩, some (clamp_bbox ⟨0, 100, Int.fdiv 800 2, 120⟩ 800 600)),
       (pyStrip ⟨"BBBB".data⟩, some (clamp_bbox ⟨Int.fdiv 800 2, 100, 800, 120⟩ 800 600))] :=
  c2_wide_split_amended 800 600 _ "AAAA    BBBB" ⟨0, 100, 680, 120⟩ "AAAA".data "BBBB".data
    rfl (by decide) (by decide) (by decide)

/-! ### C4: the bbox invariant -/

/-- C4: wide-line splitting can attach a degenerate box to an output
record.  For a line whose explicit box lies above the page (`y1 < 0`),
`clamp_bbox` — which, despite its `Optional` annotation and the `if
left_bb:` guards at its call sites, never returns `None` — collapses both
page halves to `y0 = y1 = 0`, and both degenerate boxes are attached to the
output views, contradicting the invariant that a box with `y1 ≤ y0` is
treated as absent. -/
theorem c4_degenerate_box_attached :
    postProcess [⟨PyObj.list [PyObj.num 0, PyObj.num (-20), PyObj.num 700, PyObj.num (-5)],
      PyObj.none, PyObj.none, PyObj.none, some "AAAA  BBBB"⟩] 800 600 =
      [⟨0, "AAAA", some ⟨0, 0, 400, 0⟩⟩, ⟨1, "BBBB", some ⟨400, 0, 800, 0⟩⟩] ∧
    ((postProcess [⟨PyObj.list [PyObj.num 0, PyObj.num (-20), PyObj.num 700, PyObj.num (-5)],
      PyObj.none, PyObj.none, PyObj.none, some "AAAA  BBBB"⟩] 800 600).any fun v =>
        match v.bbox with
        | some bb => decide (bb.y1 ≤ bb.y0)
        | Option.none => false) = true :=
  ⟨by with_unfolding_all decide, by with_unfolding_all decide⟩

/-! ### C6: row consistency -/

theorem svr_symm (a b : RecordView) (pw : Int) :
    is_same_visual_row a b pw = is_same_visual_row b a pw := by
  unfold is_same_visual_row
  cases ha : a.bbox with
  | none => cases hb : b.bbox <;> rfl
  | some ba =>
    cases hb : b.bbox with
    | none => rfl
    | some bb =>
      dsimp only
      rw [show |ba.y0 - bb.y0| = |bb.y0 - ba.y0| from abs_sub_comm _ _]
      by_cases h2 : |bb.y0 - ba.y0| > 12
      · rw [if_pos h2, if_pos h2]
      · rw [if_neg h2, if_neg h2]
        by_cases h3 : (ba.x1 < Int.fdiv pw 2 ∧ bb.x0 > Int.fdiv pw 2) ∨
            (bb.x1 < Int.fdiv pw 2 ∧ ba.x0 > Int.fdiv pw 2)
        · rw [if_pos h3, if_pos (Or.symm h3)]
        · rw [if_neg h3, if_neg fun hh => h3 (Or.symm hh)]

/-- A two-view input lands in one row iff the views are compatible. -/
theorem group_rows_pair (a b : RecordView) (pw : Int)
    (ha : a.bbox.isSome = true) (hb : b.bbox.isSome = true) :
    (group_rows_by_y [a, b] pw).length =
      if is_same_visual_row a b pw = true then 1 else 2 := by
  unfold group_rows_by_y
  rw [show ([a, b].filter fun rv => rv.bbox.isSome) = [a, b] from by
    simp [List.filter_cons, ha, hb]]
  have hcases : pySortBy rowSortKeyY [a, b] = [a, b] ∨
      pySortBy rowSortKeyY [a, b] = [b, a] := by
    by_cases hr : keyLeB (rowSortKeyY a) (rowSortKeyY b) = true
    · left
      simp [pySortBy, List.insertionSort, List.orderedInsert, hr]
    · right
      simp [pySortBy, List.insertionSort, List.orderedInsert, hr]
  rcases hcases with h | h <;> rw [h]
  · by_cases hs : is_same_visual_row a b pw = true
    · simp [placeRow, hs]
    · simp [placeRow, hs]
  · by_cases hs : is_same_visual_row a b pw = true
    · have hs2 : is_same_visual_row b a pw = true := (svr_symm a b pw) ▸ hs
      simp [placeRow, hs, hs2]
    · have hs2 : ¬ is_same_visual_row b a pw = true := fun hh =>
        hs ((svr_symm a b pw).trans hh ▸ rfl)
      simp [placeRow, hs, hs2]

/-- C6 (amended): two lines whose top edges differ by at most 12 px and
which do not lie strictly on opposite sides of the page midline land in the
same row when grouped together (vertical overlap greater than half the
height does not by itself suffice — the 12 px top-edge tolerance governs,
see the counterexample); two lines strictly on opposite sides of the
midline land in different rows even with identical top edges. -/
theorem c6_row_consistency_amended :
    (∀ (a b : RecordView) (pw : Int) (ba bb : BBox),
      a.bbox = some ba → b.bbox = some bb →
      |ba.y0 - bb.y0| ≤ 12 →
      ¬((ba.x1 < Int.fdiv pw 2 ∧ bb.x0 > Int.fdiv pw 2) ∨
        (bb.x1 < Int.fdiv pw 2 ∧ ba.x0 > Int.fdiv pw 2)) →
      (group_rows_by_y [a, b] pw).length = 1) ∧
    (∀ (a b : RecordView) (pw : Int) (ba bb : BBox),
      a.bbox = some ba → b.bbox = some bb →
      ba.y0 = bb.y0 → ba.x1 < Int.fdiv pw 2 → bb.x0 > Int.fdiv pw 2 →
      (group_rows_by_y [a, b] pw).length = 2) := by
  constructor
  · intro a b pw ba bb ha hb hy hstraddle
    have hs : is_same_visual_row a b pw = true := by
      unfold is_same_visual_row
      rw [ha, hb]
      dsimp only
      rw [if_neg (not_lt.mpr hy), if_neg hstraddle]
    rw [group_rows_pair a b pw (by rw [ha]; rfl) (by rw [hb]; rfl), if_pos hs]
  · intro a b pw ba bb ha hb hy hl hr
    have hs : ¬ is_same_visual_row a b pw = true := by
      unfold is_same_visual_row
      rw [ha, hb]
      dsimp only
      rw [if_neg (by rw [hy]; simp), if_pos (Or.inl ⟨hl, hr⟩)]
      simp
    rw [group_rows_pair a b pw (by rw [ha]; rfl) (by rw [hb]; rfl), if_neg hs]

/-- Counterexample for C6 as stated: boxes `(0, 0, 100, 100)` and
`(0, 30, 100, 130)` overlap vertically by 70 px — more than half their
100 px heights — and both lie left of the midline of a 1000 px page, yet
they land in different rows (their top edges differ by 30 px > 12 px). -/
theorem c6_row_overlap_cex :
    group_rows_by_y [⟨0, "a", some ⟨0, 0, 100, 100⟩⟩, ⟨1, "b", some ⟨0, 30, 100, 130⟩⟩] 1000 =
      [[⟨0, "a", some ⟨0, 0, 100, 100⟩⟩], [⟨1, "b", some ⟨0, 30, 100, 130⟩⟩]] ∧
    min (100 : Int) 130 - max 0 30 > (min (100 - 0) (130 - 30) : Int) / 2 ∧
    (100 : Int) < Int.fdiv 1000 2 ∧ (100 : Int) < Int.fdiv 1000 2 :=
  ⟨by with_unfolding_all decide, by decide, by decide, by decide⟩

/-- Witness for the amended C6: a compatible pair shares a row, a
strictly-straddling pair with equal tops does not. -/
theorem c6_row_consistency_amended_witness :
    (group_rows_by_y [⟨0, "a", some ⟨0, 0, 100, 20⟩⟩, ⟨1, "b", some ⟨0, 5, 100, 25⟩⟩]
      1000).length = 1 ∧
    (group_rows_by_y [⟨0, "a", some ⟨0, 0, 100, 20⟩⟩, ⟨1, "b", some ⟨600, 0, 700, 20⟩⟩]
      1000).length = 2 :=
  ⟨c6_row_consistency_amended.1 _ _ 1000 ⟨0, 0, 100, 20⟩ ⟨0, 5, 100, 25⟩ rfl rfl
    (by decide) (by decide),
   c6_row_consistency_amended.2 _ _ 1000 ⟨0, 0, 100, 20⟩ ⟨600, 0, 700, 20⟩ rfl rfl
    (by decide) (by decide) (by decide)⟩

/-! ### C3: single-column fallbacks -/

/-- C3 (amended): with fewer than 6 body candidates the sorter returns all
bbox-bearing lines ordered by `(y, x)` with the sign flips of the reading
mode; but when the two cluster centres end up closer than 18% of the image
width, it returns the plain ascending `(y, x)` order for every mode — the
sign flips are not applied in that fallback. -/
theorem c3_single_column_fallback_amended :
    (∀ (records : List Rec) (w : Int) (mode : Nat),
      sorterItems records ≠ [] →
      (bodyCandidates w (sorterItems records)).length < 6 →
      sort_records_reading_order records w mode =
        fallbackSort (flipKey (decide (mode / 2 = 1)) (decide (mode % 2 = 1)))
          (sorterItems records)) ∧
    (∀ (records : List Rec) (w : Int) (mode : Nat) (c1 c2 : ℚ),
      sorterItems records ≠ [] →
      ¬ (bodyCandidates w (sorterItems records)).length < 6 →
      kmeansCenters ((bodyCandidates w (sorterItems records)).map fun p => bbCenterX p.2) =
        some (c1, c2) →
      |c2 - c1| < (w : ℚ) * (18/100) →
      sort_records_reading_order records w mode =
        fallbackSort plainKey (sorterItems records)) := by
  constructor
  · intro records w mode hne hlt
    unfold sort_records_reading_order
    cases hit : sorterItems records with
    | nil => exact absurd hit hne
    | cons a t =>
      rw [hit] at hlt
      dsimp only
      unfold sortWithGeom
      rw [if_pos hlt]
  · intro records w mode c1 c2 hne hge hkm h18
    unfold sort_records_reading_order
    cases hit : sorterItems records with
    | nil => exact absurd hit hne
    | cons a t =>
      rw [hit] at hge hkm
      dsimp only
      unfold sortWithGeom
      rw [if_neg hge, hkm]
      dsimp only
      rw [if_pos h18]

/-- Counterexample for C3 as stated: six 14 px-tall narrow lines with
identical centres make the two cluster centres coincide, so the
close-centres fallback fires; in bottom-to-top mode 2 the claim demands the
negated-y order (`y = 110` first), but the code returns the plain ascending
`(y, x)` order. -/
theorem c3_close_centers_mode_cex :
    sort_records_reading_order stack6 1000 2 =
      [stackRec 10, stackRec 30, stackRec 50, stackRec 70, stackRec 90, stackRec 110] ∧
    fallbackSort (flipKey (decide ((2 : Nat) / 2 = 1)) (decide ((2 : Nat) % 2 = 1)))
        (sorterItems stack6) =
      [stackRec 110, stackRec 90, stackRec 70, stackRec 50, stackRec 30, stackRec 10] ∧
    sort_records_reading_order stack6 1000 2 ≠
      fallbackSort (flipKey (decide ((2 : Nat) / 2 = 1)) (decide ((2 : Nat) % 2 = 1)))
        (sorterItems stack6) := by
  refine ⟨?_, ?_, ?_⟩ <;> with_unfolding_all decide

/-- Witness for the amended C3: one line exercises the few-candidates flip
branch (mode 3), the six-line stack exercises the close-centres plain
branch (mode 2). -/
theorem c3_single_column_fallback_amended_witness :
    sort_records_reading_order [stackRec 10] 1000 3 =
      fallbackSort (flipKey (decide ((3 : Nat) / 2 = 1)) (decide ((3 : Nat) % 2 = 1)))
        (sorterItems [stackRec 10]) ∧
    sort_records_reading_order stack6 1000 2 = fallbackSort plainKey (sorterItems stack6) :=
  ⟨c3_single_column_fallback_amended.1 [stackRec 10] 1000 3 (by with_unfolding_all decide)
     (by with_unfolding_all decide),
   c3_single_column_fallback_amended.2 stack6 1000 2 200 200 (by with_unfolding_all decide)
     (by with_unfolding_all decide) (by with_unfolding_all decide)
     (by with_unfolding_all decide)⟩

/-! ### C10: k-means centre safety -/

theorem sum_le_length_mul (l : List ℚ) (M : ℚ) (h : ∀ x ∈ l, x ≤ M) :
    l.sum ≤ (l.length : ℚ) * M := by
  induction l with
  | nil => simp
  | cons a t ih =>
    simp only [List.sum_cons, List.length_cons]
    have h1 : a ≤ M := h a (List.mem_cons_self a t)
    have h2 : t.sum ≤ (t.length : ℚ) * M := ih fun x hx => h x (List.mem_cons_of_mem a hx)
    push_cast
    linarith

theorem length_mul_le_sum (l : List ℚ) (m : ℚ) (h : ∀ x ∈ l, m ≤ x) :
    (l.length : ℚ) * m ≤ l.sum := by
  induction l with
  | nil => simp
  | cons a t ih =>
    simp only [List.sum_cons, List.length_cons]
    have h1 : m ≤ a := h a (List.mem_cons_self a t)
    have h2 : (t.length : ℚ) * m ≤ t.sum := ih fun x hx => h x (List.mem_cons_of_mem a hx)
    push_cast
    linarith

theorem mean_in_range (l : List ℚ) (m M : ℚ) (hne : l ≠ [])
    (hm : ∀ x ∈ l, m ≤ x) (hM : ∀ x ∈ l, x ≤ M) :
    m ≤ l.sum / l.length ∧ l.sum / l.length ≤ M := by
  have hlen : (0 : ℚ) < l.length := by
    cases l with
    | nil => exact absurd rfl hne
    | cons a t => exact_mod_cast Nat.succ_pos t.length
  constructor
  · rw [le_div_iff₀ hlen]
    calc m * l.length = (l.length : ℚ) * m := mul_comm _ _
    _ ≤ l.sum := length_mul_le_sum l m hm
  · rw [div_le_iff₀ hlen]
    calc l.sum ≤ (l.length : ℚ) * M := sum_le_length_mul l M hM
    _ = M * l.length := mul_comm _ _

theorem ne_nil_of_isEmpty_ne_true {α : Type} {l : List α} (h : ¬ l.isEmpty = true) :
    l ≠ [] := by
  cases l with
  | nil => exact absurd rfl h
  | cons a t => exact List.cons_ne_nil a t

theorem getD_mem_of_lt {l : List ℚ} {i : Nat} (h : i < l.length) (d : ℚ) :
    l.getD i d ∈ l := by
  induction l generalizing i with
  | nil => simp at h
  | cons a t ih =>
    cases i with
    | zero => simp [List.getD]
    | succ n =>
      have : t.getD n d ∈ t := ih (by simpa using h)
      simp only [List.getD_cons_succ]
      exact List.mem_cons_of_mem a this

theorem q_isSome {values : List ℚ} (hne : values ≠ []) (p : ℚ) :
    ∃ r, q values p = some r := by
  cases values with
  | nil => exact absurd rfl hne
  | cons v vs =>
    rw [q]
    split
    · exact ⟨_, rfl⟩
    · exact ⟨_, rfl⟩

theorem q_mem_range {values : List ℚ} {p r : ℚ} (hp0 : 0 ≤ p) (hp1 : p ≤ 1)
    (h : q values p = some r) : listMin values ≤ r ∧ r ≤ listMax values := by
  cases values with
  | nil => simp [q] at h
  | cons v vs =>
    rw [q] at h
    have hperm : (pySortBy (fun v => (v, (0 : ℚ))) (v :: vs)).Perm (v :: vs) :=
      List.perm_insertionSort _ _
    set vals := pySortBy (fun v => (v, (0 : ℚ))) (v :: vs) with hvals
    have hlen : vals.length = vs.length + 1 := by
      rw [hperm.length_eq]
      rfl
    have hk0 : 0 ≤ ((vals.length : ℚ) - 1) * p := by
      apply mul_nonneg _ hp0
      have : (1 : ℚ) ≤ (vals.length : ℚ) := by exact_mod_cast Nat.one_le_iff_ne_zero.mpr (by omega)
      linarith
    have hkn : ((vals.length : ℚ) - 1) * p ≤ (vals.length : ℚ) - 1 := by
      have h0 : (0 : ℚ) ≤ (vals.length : ℚ) - 1 := by
        have : (1 : ℚ) ≤ (vals.length : ℚ) := by exact_mod_cast Nat.one_le_iff_ne_zero.mpr (by omega)
        linarith
      calc ((vals.length : ℚ) - 1) * p ≤ ((vals.length : ℚ) - 1) * 1 :=
        mul_le_mul_of_nonneg_left hp1 h0
      _ = (vals.length : ℚ) - 1 := mul_one _
    have hfloor : pyTrunc (((vals.length : ℚ) - 1) * p) = ⌊((vals.length : ℚ) - 1) * p⌋ := by
      rw [pyTrunc, if_pos hk0]
    have hf0 : 0 ≤ ⌊((vals.length : ℚ) - 1) * p⌋ := Int.floor_nonneg.mpr hk0
    have hfn : ⌊((vals.length : ℚ) - 1) * p⌋ ≤ (vals.length : Int) - 1 := by
      have h1 := Int.floor_le_floor hkn
      have h2 : ⌊((vals.length : ℚ) - 1)⌋ = (vals.length : Int) - 1 := by
        rw [show ((vals.length : ℚ) - 1) = (((vals.length : Int) - 1 : Int) : ℚ) from by
          push_cast; ring]
        exact Int.floor_intCast _
      omega
    have hmemA : vals.getD (pyTrunc (((vals.length : ℚ) - 1) * p)).toNat 0 ∈ (v :: vs) := by
      apply hperm.mem_iff.mp
      apply getD_mem_of_lt
      rw [hfloor]
      omega
    have hmemB : vals.getD (min (pyTrunc (((vals.length : ℚ) - 1) * p) + 1)
        ((vals.length : Int) - 1)).toNat 0 ∈ (v :: vs) := by
      apply hperm.mem_iff.mp
      apply getD_mem_of_lt
      rw [hfloor]
      omega
    split at h
    · cases h
      exact ⟨listMin_le_of_mem hmemA, le_listMax_of_mem hmemA⟩
    · cases h
      have hA1 := listMin_le_of_mem hmemA
      have hA2 := le_listMax_of_mem hmemA
      have hB1 := listMin_le_of_mem hmemB
      have hB2 := le_listMax_of_mem hmemB
      have ht0 : 0 ≤ ((vals.length : ℚ) - 1) * p -
          ((pyTrunc (((vals.length : ℚ) - 1) * p) : Int) : ℚ) := by
        rw [hfloor]
        have := Int.floor_le (((vals.length : ℚ) - 1) * p)
        linarith
      have ht1 : ((vals.length : ℚ) - 1) * p -
          ((pyTrunc (((vals.length : ℚ) - 1) * p) : Int) : ℚ) ≤ 1 := by
        rw [hfloor]
        have := Int.lt_floor_add_one (((vals.length : ℚ) - 1) * p)
        linarith
      constructor
      · nlinarith
      · nlinarith

theorem kstep_range (xs : List ℚ) (c : ℚ × ℚ)
    (h1 : listMin xs ≤ c.1 ∧ c.1 ≤ listMax xs)
    (h2 : listMin xs ≤ c.2 ∧ c.2 ≤ listMax xs) :
    (listMin xs ≤ (kstep xs c).1 ∧ (kstep xs c).1 ≤ listMax xs) ∧
    (listMin xs ≤ (kstep xs c).2 ∧ (kstep xs c).2 ≤ listMax xs) := by
  unfold kstep
  dsimp only
  constructor
  · split
    · exact h1
    · next hg =>
      apply mean_in_range _ _ _ (ne_nil_of_isEmpty_ne_true (by simpa using hg))
      · intro x hx
        exact listMin_le_of_mem (List.mem_of_mem_filter hx)
      · intro x hx
        exact le_listMax_of_mem (List.mem_of_mem_filter hx)
  · split
    · exact h2
    · next hg =>
      apply mean_in_range _ _ _ (ne_nil_of_isEmpty_ne_true (by simpa using hg))
      · intro x hx
        exact listMin_le_of_mem (List.mem_of_mem_filter hx)
      · intro x hx
        exact le_listMax_of_mem (List.mem_of_mem_filter hx)

theorem iterate_kstep_range (xs : List ℚ) (nIter : Nat) (c : ℚ × ℚ)
    (h1 : listMin xs ≤ c.1 ∧ c.1 ≤ listMax xs)
    (h2 : listMin xs ≤ c.2 ∧ c.2 ≤ listMax xs) :
    (listMin xs ≤ ((kstep xs)^[nIter] c).1 ∧ ((kstep xs)^[nIter] c).1 ≤ listMax xs) ∧
    (listMin xs ≤ ((kstep xs)^[nIter] c).2 ∧ ((kstep xs)^[nIter] c).2 ≤ listMax xs) := by
  induction nIter generalizing c with
  | zero => exact ⟨h1, h2⟩
  | succ n ih =>
    rw [Function.iterate_succ_apply]
    obtain ⟨g1, g2⟩ := kstep_range xs c h1 h2
    exact ih _ g1 g2

/-- C10: in the two-centre Lloyd iteration, a cluster that receives no
points keeps its previous centre (so the mean update never divides by
zero), and for every non-empty candidate set the computed pair of centres
exists and stays within the range of the candidate centres. -/
theorem c10_kmeans_centers_safe :
    (∀ (xs : List ℚ) (c : ℚ × ℚ),
      xs.filter (fun x => decide (|x - c.1| ≤ |x - c.2|)) = [] → (kstep xs c).1 = c.1) ∧
    (∀ (xs : List ℚ) (c : ℚ × ℚ),
      xs.filter (fun x => !decide (|x - c.1| ≤ |x - c.2|)) = [] → (kstep xs c).2 = c.2) ∧
    (∀ xs : List ℚ, xs ≠ [] → ∃ c1 c2, kmeansCenters xs = some (c1, c2) ∧
      listMin xs ≤ c1 ∧ c1 ≤ listMax xs ∧ listMin xs ≤ c2 ∧ c2 ≤ listMax xs) := by
  refine ⟨?_, ?_, ?_⟩
  · intro xs c h
    unfold kstep
    simp [h]
  · intro xs c h
    unfold kstep
    simp [h]
  · intro xs hne
    obtain ⟨s1, hs1⟩ := q_isSome hne (1/4)
    obtain ⟨s2, hs2⟩ := q_isSome hne (3/4)
    have hb1 := q_mem_range (by norm_num) (by norm_num) hs1
    have hb2 := q_mem_range (by norm_num) (by norm_num) hs2
    have hrange := iterate_kstep_range xs 8 (s1, s2) hb1 hb2
    unfold kmeansCenters
    rw [hs1, hs2]
    dsimp only
    by_cases hgt : ((kstep xs)^[8] (s1, s2)).1 > ((kstep xs)^[8] (s1, s2)).2
    · exact ⟨((kstep xs)^[8] (s1, s2)).2, ((kstep xs)^[8] (s1, s2)).1,
        by rw [if_pos hgt], hrange.2.1, hrange.2.2, hrange.1.1, hrange.1.2⟩
    · exact ⟨((kstep xs)^[8] (s1, s2)).1, ((kstep xs)^[8] (s1, s2)).2,
        by rw [if_neg hgt], hrange.1.1, hrange.1.2, hrange.2.1, hrange.2.2⟩

/-- Witness for C10: the empty clusters of `kstep` on no points keep the
seed centres, and the centres computed for `[0, 100]` stay within
`[0, 100]`. -/
theorem c10_kmeans_centers_safe_witness :
    (kstep [] ((0 : ℚ), (1 : ℚ))).1 = 0 ∧
    (kstep [] ((0 : ℚ), (1 : ℚ))).2 = 1 ∧
    (∃ c1 c2, kmeansCenters [(0 : ℚ), 100] = some (c1, c2) ∧
      listMin [(0 : ℚ), 100] ≤ c1 ∧ c1 ≤ listMax [(0 : ℚ), 100] ∧
      listMin [(0 : ℚ), 100] ≤ c2 ∧ c2 ≤ listMax [(0 : ℚ), 100]) :=
  ⟨c10_kmeans_centers_safe.1 [] (0, 1) rfl,
   c10_kmeans_centers_safe.2.1 [] (0, 1) rfl,
   c10_kmeans_centers_safe.2.2 [0, 100] (by decide)⟩

/-! ### C1: what `order` is a permutation of -/

theorem pySortBy_perm {α : Type} (key : α → ℚ × ℚ) (l : List α) :
    (pySortBy key l).Perm l :=
  List.perm_insertionSort _ _

theorem fallbackSort_perm (key : Rec × BBox → ℚ × ℚ) (items : List (Rec × BBox)) :
    (fallbackSort key items).Perm (items.map Prod.fst) :=
  (pySortBy_perm key items).map Prod.fst

theorem count_filter_eq {α : Type} [DecidableEq α] (p : α → Bool) (a : α) (l : List α) :
    List.count a (l.filter p) = if p a = true then List.count a l else 0 := by
  split
  · exact List.count_filter (by assumption)
  · next h =>
    rw [List.count_eq_zero]
    intro hmem
    exact h (List.mem_filter.mp hmem).2

/-- Splitting a list into the three band filters loses and duplicates
nothing. -/
theorem filter_band_perm {α : Type} [DecidableEq α] (f : α → Band) (l : List α) :
    ((l.filter fun x => decide (f x = Band.header)) ++
     ((l.filter fun x => decide (f x = Band.mid)) ++
      (l.filter fun x => decide (f x = Band.footer)))).Perm l := by
  rw [List.perm_iff_count]
  intro a
  simp only [List.count_append, count_filter_eq]
  cases hf : f a <;> simp [hf]

/-- Splitting a list by a predicate and its pointwise negation loses and
duplicates nothing. -/
theorem filter_col_perm {α : Type} [DecidableEq α] (pb qb : α → Bool)
    (hpq : ∀ x, qb x = !pb x) (l : List α) :
    (l.filter pb ++ l.filter qb).Perm l := by
  rw [List.perm_iff_count]
  intro a
  simp only [List.count_append, count_filter_eq, hpq]
  cases hp : pb a <;> simp [hp]

/-- Each of the four mode-dependent block concatenations is a permutation
of the input items (mapped to records). -/
theorem assembleBlocks_perm {mode : Nat} {hs ls rs fs : List Rec}
    (H M F L R items : List (Rec × BBox))
    (hH : hs.Perm (H.map Prod.fst)) (hL : ls.Perm (L.map Prod.fst))
    (hR : rs.Perm (R.map Prod.fst)) (hF : fs.Perm (F.map Prod.fst))
    (hM : (L ++ R).Perm M) (hItems : (H ++ (M ++ F)).Perm items) :
    (assembleBlocks mode hs ls rs fs).Perm (items.map Prod.fst) := by
  have h3 : (H ++ L ++ R ++ F).Perm (H ++ (M ++ F)) := by
    have he : H ++ L ++ R ++ F = H ++ ((L ++ R) ++ F) := by simp [List.append_assoc]
    rw [he]
    exact List.Perm.append_left H (hM.append (List.Perm.refl F))
  have hcore : (hs ++ ls ++ rs ++ fs).Perm (items.map Prod.fst) := by
    have h1 : (hs ++ ls ++ rs ++ fs).Perm
        (H.map Prod.fst ++ L.map Prod.fst ++ R.map Prod.fst ++ F.map Prod.fst) :=
      ((hH.append hL).append hR).append hF
    have h2 : H.map Prod.fst ++ L.map Prod.fst ++ R.map Prod.fst ++ F.map Prod.fst =
        (H ++ L ++ R ++ F).map Prod.fst := by
      simp [List.map_append]
    refine h1.trans ?_
    rw [h2]
    exact (h3.map Prod.fst).trans (hItems.map Prod.fst)
  unfold assembleBlocks
  split
  · exact hcore
  · split
    · refine List.Perm.trans ?_ hcore
      rw [List.perm_iff_count]
      intro a
      simp only [List.count_append]
      omega
    · split
      · refine List.Perm.trans ?_ hcore
        rw [List.perm_iff_count]
        intro a
        simp only [List.count_append]
        omega
      · refine List.Perm.trans ?_ hcore
        rw [List.perm_iff_count]
        intro a
        simp only [List.count_append]
        omega

theorem bandAssembly_perm (w : Int) (mode : Nat) (c1 c2 bT bB : ℚ)
    (items : List (Rec × BBox)) :
    (bandAssembly w mode c1 c2 bT bB items).Perm (items.map Prod.fst) := by
  unfold bandAssembly
  dsimp only
  apply assembleBlocks_perm _ _ _ _ _ items
    ((pySortBy_perm _ _).map Prod.fst) ((pySortBy_perm _ _).map Prod.fst)
    ((pySortBy_perm _ _).map Prod.fst) ((pySortBy_perm _ _).map Prod.fst)
    (filter_col_perm _ _ ?_ _) (filter_band_perm (fun p => bandOf bT bB p.2) items)
  intro x
  cases hA : isFullwidth w x.2 <;>
    cases hB : decide (|bbCenterX x.2 - c1| ≤ |bbCenterX x.2 - c2|) <;> simp [hA, hB]

theorem sortWithGeom_perm (w : Int) (mode : Nat) (items : List (Rec × BBox)) :
    (sortWithGeom w mode items).Perm (items.map Prod.fst) := by
  unfold sortWithGeom
  dsimp only
  split
  · exact fallbackSort_perm _ _
  · split
    · exact fallbackSort_perm _ _
    · split
      · exact fallbackSort_perm _ _
      · split
        · exact bandAssembly_perm _ _ _ _ _ _ _
        · exact fallbackSort_perm _ _

/-- C1 (amended): when no line has a derivable bbox, `order` returns all
lines in input order; otherwise it returns a permutation of exactly the
bbox-bearing lines — lines without a bbox are dropped from the output
whenever at least one line has a bbox. -/
theorem c1_order_perm_amended (records : List Rec) (w : Int) (mode : Nat) :
    (sorterItems records = [] → sort_records_reading_order records w mode = records) ∧
    (sorterItems records ≠ [] →
      (sort_records_reading_order records w mode).Perm
        ((sorterItems records).map Prod.fst)) := by
  constructor
  · intro h
    unfold sort_records_reading_order
    rw [h]
  · intro h
    unfold sort_records_reading_order
    cases hit : sorterItems records with
    | nil => exact absurd hit h
    | cons a t =>
      dsimp only
      exact sortWithGeom_perm w mode (a :: t)

/-- Counterexample for C1 as stated: given one boxless line and one boxed
line, the sorter drops the boxless line entirely — the output is not a
permutation of the input, and the line without a bbox does not appear in
the final output at all. -/
theorem c1_dropped_line_cex :
    sort_records_reading_order [recNoGeo, recWithBox] 100 0 = [recWithBox] ∧
    recNoGeo ∉ sort_records_reading_order [recNoGeo, recWithBox] 100 0 :=
  ⟨by with_unfolding_all decide, by with_unfolding_all decide⟩

/-- Witness for the amended C1: the all-boxless singleton passes through
unchanged, and a mixed input permutes exactly its bbox-bearing lines. -/
theorem c1_order_perm_amended_witness :
    sort_records_reading_order [recNoGeo] 100 0 = [recNoGeo] ∧
    (sort_records_reading_order [recNoGeo, recWithBox] 100 0).Perm
      ((sorterItems [recNoGeo, recWithBox]).map Prod.fst) :=
  ⟨(c1_order_perm_amended [recNoGeo] 100 0).1 (by decide),
   (c1_order_perm_amended [recNoGeo, recWithBox] 100 0).2 (by decide)⟩
